import Mathlib

/-!
Verification of the contact-analysis notebooks.

The repository contains two Jupyter notebooks that use an external
molecular-dynamics library.  The code owned by the repository is the
function `contacts_within_cutoff` (first notebook), the function
`fraction_contacts_between` (second notebook), and the two atom-selection
strings defining salt bridges.  The external library's routines
(`distance_array`, `contact_matrix`, the `Contacts` analysis class and the
selection query language) are not part of the repository; they are modelled
from the specification's description of the external interface.

Coordinates are modelled as rational triples and the point-to-point metric
is kept as an explicit parameter `d`, since the specification only says the
external pairwise-distance routine takes two coordinate arrays and returns
the matrix of distances between their points.  Numpy arrays are modelled as
lists (matrices as lists of rows); element-wise operations on a 2-D array
act on the flattened list of its entries.
-/

/-- A spatial coordinate of one atom, as a rational triple. -/
abbrev Pos : Type := ℚ × ℚ × ℚ

/-- One time-sampled snapshot of the trajectory: its frame number
(the `ts.frame` attribute) and the coordinates of every atom at that time,
as a function from atom index to position. -/
structure Frame where
  frame : ℕ
  coords : ℕ → Pos

/-- A universe: a loaded structure together with its trajectory,
modelled as the list of frames in iteration order. -/
structure Universe where
  trajectory : List Frame

/-- An atom group is a list of atom indices into the universe. -/
abbrev AtomGroup : Type := List ℕ

/-- The `positions` attribute of an atom group at a given timestep:
the coordinates of its atoms at that frame, in group order. -/
def groupPositions (ts : Frame) (g : AtomGroup) : List Pos :=
  g.map ts.coords

/-- Modelled from the spec: "A pairwise-distance function taking two
coordinate arrays and returning a distance matrix."  Entry (i, j) of the
result is the distance, under the metric `d`, between point i of `xs` and
point j of `ys`. -/
def distance_array (d : Pos → Pos → ℚ) (xs ys : List Pos) : List (List ℚ) :=
  xs.map (fun x => ys.map (fun y => d x y))

/-- Modelled from the spec: "A thresholding function converting a distance
matrix and a cutoff radius into a boolean contact matrix"; a contact is a
pair "whose separation distance is below a specified cutoff radius". -/
def contact_matrix (dm : List (List ℚ)) (radius : ℚ) : List (List Bool) :=
  dm.map (fun row => row.map (fun x => decide (x < radius)))

/-- The `.sum()` of a boolean matrix: the number of `true` entries. -/
def boolMatrixSum (m : List (List Bool)) : ℕ :=
  (m.map (fun row => row.count true)).sum

/-- Entry (i, j) of a matrix, when both indices are in range. -/
def matrixEntry {α : Type} (m : List (List α)) (i j : ℕ) : Option α :=
  (m[i]?).bind (fun row => row[j]?)

/-- The per-frame body of `contacts_within_cutoff`:
`contacts.contact_matrix(contacts.distance_array(group_a.positions,
group_b.positions), radius).sum()`. -/
def n_contacts (d : Pos → Pos → ℚ) (ts : Frame)
    (group_a group_b : AtomGroup) (radius : ℚ) : ℕ :=
  boolMatrixSum
    (contact_matrix
      (distance_array d (groupPositions ts group_a) (groupPositions ts group_b))
      radius)

/-- `contacts_within_cutoff(u, group_a, group_b, radius)` from the first
notebook: start from an empty `timeseries`, loop over the trajectory, and
append the row `[ts.frame, n_contacts]` for each timestep. -/
def contacts_within_cutoff (d : Pos → Pos → ℚ) (u : Universe)
    (group_a group_b : AtomGroup) (radius : ℚ) : List (List ℕ) :=
  u.trajectory.foldl
    (fun timeseries ts =>
      timeseries ++ [[ts.frame, n_contacts d ts group_a group_b radius]])
    []

/-- `fraction_contacts_between(r, r0, radius, min_radius)` from the second
notebook: `is_in_contact = (r < radius) & (r > min_radius)`, then
`is_in_contact.sum() / r.size`.  The array `r` is modelled element-wise as
a list of distances; `r0` is accepted but never read, as in the source. -/
def fraction_contacts_between (r : List ℚ) (r0 : List ℚ)
    (radius : ℚ) (min_radius : ℚ) : ℚ :=
  let is_in_contact := r.map (fun x => decide (x < radius) && decide (min_radius < x))
  ((is_in_contact.count true : ℚ)) / ((r.length : ℚ))

/-- A variant of `contacts_within_cutoff` in which the two external library
calls are parameters that may fail.  The notebook code itself has no
error-raising branch, so an error can enter only through these
parameters. -/
def contacts_within_cutoffE
    (distE : List Pos → List Pos → Except String (List (List ℚ)))
    (contactE : List (List ℚ) → ℚ → Except String (List (List Bool)))
    (u : Universe) (group_a group_b : AtomGroup) (radius : ℚ) :
    Except String (List (List ℕ)) :=
  u.trajectory.foldlM
    (fun timeseries ts => do
      let dist ← distE (groupPositions ts group_a) (groupPositions ts group_b)
      let cm ← contactE dist radius
      pure (timeseries ++ [[ts.frame, boolMatrixSum cm]]))
    []

/-- A variant of `fraction_contacts_between` in which the external array
division is a parameter that may fail; all remaining logic of the function
is branch-free. -/
def fraction_contacts_betweenE (divE : ℕ → ℕ → Except String ℚ)
    (r : List ℚ) (r0 : List ℚ) (radius : ℚ) (min_radius : ℚ) :
    Except String ℚ :=
  let is_in_contact := r.map (fun x => decide (x < radius) && decide (min_radius < x))
  divE (is_in_contact.count true) r.length

/-- Modelled from the spec: "A reusable analysis class accepting two
atom-selection groups, a reference group pair, a cutoff radius, a pluggable
scoring function, and auxiliary keyword arguments, producing a per-frame
time series."  The scoring function receives the current frame's distance
array, the reference distance array r0, and the two auxiliary keyword
arguments used in the notebook (`radius` and `min_radius`). -/
structure Contacts where
  u : Universe
  grA : AtomGroup
  grB : AtomGroup
  refA : List Pos
  refB : List Pos
  radius : ℚ
  method : List ℚ → List ℚ → ℚ → ℚ → ℚ
  kwRadius : ℚ
  kwMinRadius : ℚ

/-- The reference distance array r0, computed once from the reference group
pair's positions. -/
def Contacts.r0 (d : Pos → Pos → ℚ) (c : Contacts) : List ℚ :=
  (distance_array d c.refA c.refB).flatten

/-- Modelled from the spec: `run()` loops over the trajectory and appends,
for each frame, the row holding the frame number and the value the
pluggable scoring function returns for that frame; the result is the
`timeseries` attribute. -/
def Contacts.run (d : Pos → Pos → ℚ) (c : Contacts) : List (List ℚ) :=
  c.u.trajectory.foldl
    (fun timeseries ts =>
      timeseries ++
        [[(ts.frame : ℚ),
          c.method
            ((distance_array d (groupPositions ts c.grA)
                (groupPositions ts c.grB)).flatten)
            (Contacts.r0 d c) c.kwRadius c.kwMinRadius]])
    []

/-- An atom's topology attributes read by the selection strings. -/
structure Atom where
  resname : String
  name : String
deriving DecidableEq

/-- One token of a `name` selection list: either an exact atom name or,
when written with a trailing `*`, a leading-substring wildcard. -/
inductive NameToken where
  | exact (s : String)
  | wildcard (w : String)
deriving DecidableEq

/-- Whether an atom name matches a name token.  The wildcard check is a
character-level leading-substring test. -/
def NameToken.matchesName (t : NameToken) (nm : String) : Bool :=
  match t with
  | .exact s => nm == s
  | .wildcard w => w.data.isPrefixOf nm.data

/-- Modelled from the spec: the "atom-selection query language
(string-based)" of the external library, restricted to the form the
notebooks use: a conjunction `(resname R1 R2) and (name N1 N2)`. -/
structure Selection where
  resnames : List String
  nameTokens : List NameToken

/-- Whether an atom satisfies a selection: its residue name is one of the
listed residue names and its atom name matches one of the name tokens. -/
def Selection.matchesAtom (s : Selection) (a : Atom) : Bool :=
  (s.resnames.contains a.resname) && (s.nameTokens.any (fun t => t.matchesName a.name))

/-- The selection string `(resname ARG LYS) and (name NH* NZ)` from the
notebooks. -/
def sel_basic : Selection :=
  ⟨["ARG", "LYS"], [.wildcard "NH", .exact "NZ"]⟩

/-- The selection string `(resname ASP GLU) and (name OE* OD*)` from the
notebooks. -/
def sel_acidic : Selection :=
  ⟨["ASP", "GLU"], [.wildcard "OE", .wildcard "OD"]⟩

/-- Modelled from the spec: `u.select_atoms(sel)` returns the atoms
satisfying the selection. -/
def select_atoms (atoms : List Atom) (s : Selection) : List Atom :=
  atoms.filter s.matchesAtom

/-! ### Concrete fixtures used by the witness theorems -/

/-- A concrete metric for evaluation, chosen to avoid rational arithmetic
(which the kernel cannot reduce): the larger of the two x-coordinates. -/
def dTest : Pos → Pos → ℚ := fun p q => if p.1 < q.1 then q.1 else p.1

/-- A concrete frame: frame number 0, atoms 0, 1, 2 at x = 0, 1, 2. -/
def frameA : Frame :=
  ⟨0, fun i => if i = 0 then (0, 0, 0) else if i = 1 then (1, 0, 0) else (2, 0, 0)⟩

/-- A concrete frame: frame number 1, atoms 0, 1, 2 at x = 0, 4, 7. -/
def frameB : Frame :=
  ⟨1, fun i => if i = 0 then (0, 1, 0) else if i = 1 then (4, 1, 0) else (7, 1, 0)⟩

/-- A concrete two-frame universe. -/
def uTest : Universe := ⟨[frameA, frameB]⟩

/-- A concrete analysis object over the two-frame universe, with the
notebook's pluggable scoring function. -/
def cTest : Contacts :=
  ⟨uTest, [0, 1], [2], [(0, 0, 0)], [(1, 0, 0)], 5,
   fraction_contacts_between, 5, 2⟩

/-! ### Helper lemmas -/

/-- A loop that appends one element per iteration builds the map of the
loop body over the list, after the initial accumulator. -/
theorem foldl_append_singleton {α β : Type} (f : α → β) :
    ∀ (l : List α) (init : List β),
      l.foldl (fun acc x => acc ++ [f x]) init = init ++ l.map f
  | [], init => by simp
  | x :: l, init => by
      simpa using foldl_append_singleton f l (init ++ [f x])

/-- The trajectory loop of `contacts_within_cutoff` produces exactly one
row per frame, in iteration order. -/
theorem contacts_within_cutoff_eq_map (d : Pos → Pos → ℚ) (u : Universe)
    (group_a group_b : AtomGroup) (radius : ℚ) :
    contacts_within_cutoff d u group_a group_b radius =
      u.trajectory.map
        (fun ts => [ts.frame, n_contacts d ts group_a group_b radius]) := by
  unfold contacts_within_cutoff
  simpa using foldl_append_singleton
    (fun ts => [ts.frame, n_contacts d ts group_a group_b radius])
    u.trajectory []

/-- Counting `true` in the image of a boolean-valued map counts the
elements satisfying the predicate. -/
theorem count_true_map {α : Type} (g : α → Bool) (l : List α) :
    (l.map g).count true = l.countP g := by
  induction l with
  | nil => simp
  | cons x l ih =>
      cases h : g x <;>
        simp [List.count_cons, List.countP_cons, h, ih]

/-- The per-frame contact count is the number of index pairs, one index
from each group, whose atoms lie strictly within the cutoff. -/
theorem n_contacts_eq_countP (d : Pos → Pos → ℚ) (ts : Frame)
    (group_a group_b : AtomGroup) (radius : ℚ) :
    n_contacts d ts group_a group_b radius =
      (group_a ×ˢ group_b).countP
        (fun p => decide (d (ts.coords p.1) (ts.coords p.2) < radius)) := by
  unfold n_contacts boolMatrixSum contact_matrix distance_array groupPositions
  induction group_a with
  | nil => simp
  | cons i a ih =>
      simp only [List.map_cons, List.sum_cons, List.product_cons,
        List.countP_append]
      rw [ih, count_true_map, List.countP_map, List.countP_map,
        List.countP_map]
      rfl

/-- Entry (i, j) of a matrix built by a double map is the function of the
i-th and j-th source elements. -/
theorem matrixEntry_map2 {α β γ : Type} (f : α → β → γ)
    (xs : List α) (ys : List β) (i j : ℕ) :
    matrixEntry (xs.map (fun x => ys.map (f x))) i j =
      xs[i]?.bind (fun x => ys[j]?.map (f x)) := by
  unfold matrixEntry
  cases h : xs[i]? with
  | none => simp [List.getElem?_map, h]
  | some x => simp [List.getElem?_map, h]

/-! ### Claim theorems -/

/-- C1: for every universe whose trajectory has n frames and every pair of
atom groups, `contacts_within_cutoff` returns a table of shape (n, 2) with
one row per trajectory frame in iteration order, whose first column is the
frame index and whose second column is the contact count for that frame. -/
theorem contacts_within_cutoff_shape (d : Pos → Pos → ℚ) (u : Universe)
    (group_a group_b : AtomGroup) (radius : ℚ) :
    (contacts_within_cutoff d u group_a group_b radius).length
        = u.trajectory.length ∧
    (∀ row ∈ contacts_within_cutoff d u group_a group_b radius,
        row.length = 2) ∧
    ∀ k (hk : k < u.trajectory.length),
      (contacts_within_cutoff d u group_a group_b radius)[k]? =
        some [(u.trajectory.get ⟨k, hk⟩).frame,
              n_contacts d (u.trajectory.get ⟨k, hk⟩) group_a group_b radius] := by
  rw [contacts_within_cutoff_eq_map]
  refine ⟨by simp, ?_, ?_⟩
  · intro row hrow
    rcases List.mem_map.mp hrow with ⟨ts, _, rfl⟩
    rfl
  · intro k hk
    rw [List.getElem?_map, List.getElem?_eq_getElem hk]
    simp [List.get_eq_getElem]

/-- Witness for C1: on the concrete two-frame universe, row 1 holds frame
number 1 and that frame's contact count. -/
theorem contacts_within_cutoff_shape_witness :
    (contacts_within_cutoff dTest uTest [0, 1] [2] 5)[1]? = some [1, 0] := by
  have h := (contacts_within_cutoff_shape dTest uTest [0, 1] [2] 5).2.2 1
    (by decide)
  exact h

/-- C3: per frame, the count is computed in steps: the pairwise-distance
function on the two groups' positions yields a matrix of shape
(len group_a, len group_b) whose (i, j) entry is the distance between atom
i of group_a and atom j of group_b; the thresholding function converts that
matrix and the cutoff into a boolean matrix; and the reported count is the
sum of the entries of that boolean matrix. -/
theorem contacts_within_cutoff_composition (d : Pos → Pos → ℚ) (ts : Frame)
    (group_a group_b : AtomGroup) (radius : ℚ) :
    (distance_array d (groupPositions ts group_a)
        (groupPositions ts group_b)).length = group_a.length ∧
    (∀ i (hi : i < group_a.length),
      ((distance_array d (groupPositions ts group_a)
          (groupPositions ts group_b))[i]?).map List.length
        = some group_b.length) ∧
    (∀ i (hi : i < group_a.length) (j) (hj : j < group_b.length),
      matrixEntry (distance_array d (groupPositions ts group_a)
          (groupPositions ts group_b)) i j
        = some (d (ts.coords (group_a.get ⟨i, hi⟩))
                  (ts.coords (group_b.get ⟨j, hj⟩)))) ∧
    (∀ i (hi : i < group_a.length) (j) (hj : j < group_b.length),
      matrixEntry (contact_matrix (distance_array d
          (groupPositions ts group_a) (groupPositions ts group_b)) radius) i j
        = some (decide (d (ts.coords (group_a.get ⟨i, hi⟩))
                          (ts.coords (group_b.get ⟨j, hj⟩)) < radius))) ∧
    n_contacts d ts group_a group_b radius =
      boolMatrixSum (contact_matrix (distance_array d
        (groupPositions ts group_a) (groupPositions ts group_b)) radius) := by
  have hlen : ∀ g : AtomGroup, (groupPositions ts g).length = g.length := by
    intro g; simp [groupPositions]
  refine ⟨by simp [distance_array, hlen], ?_, ?_, ?_, rfl⟩
  · intro i hi
    rw [distance_array, List.getElem?_map,
      List.getElem?_eq_getElem (by simpa [hlen] using hi)]
    simp [hlen]
  · intro i hi j hj
    rw [distance_array, matrixEntry_map2]
    simp [groupPositions, List.getElem?_map, List.getElem?_eq_getElem hi,
      List.getElem?_eq_getElem hj, List.get_eq_getElem]
  · intro i hi j hj
    rw [contact_matrix, distance_array]
    simp only [List.map_map, Function.comp_def]
    rw [matrixEntry_map2]
    simp [groupPositions, List.getElem?_map, List.getElem?_eq_getElem hi,
      List.getElem?_eq_getElem hj, List.get_eq_getElem]

/-- Witness for C3: on the concrete frame, entry (0, 0) of the distance
matrix is the distance between atom 0 of the first group and atom 2 of the
second, and entry (0, 0) of the boolean matrix is its comparison with the
cutoff. -/
theorem contacts_within_cutoff_composition_witness :
    matrixEntry (distance_array dTest (groupPositions frameA [0, 1])
        (groupPositions frameA [2])) 0 0
      = some (dTest (frameA.coords 0) (frameA.coords 2)) ∧
    matrixEntry (contact_matrix (distance_array dTest
        (groupPositions frameA [0, 1]) (groupPositions frameA [2])) 5) 0 0
      = some (decide (dTest (frameA.coords 0) (frameA.coords 2) < 5)) :=
  ⟨(contacts_within_cutoff_composition dTest frameA [0, 1] [2] 5).2.2.1
      0 (by decide) 0 (by decide),
   (contacts_within_cutoff_composition dTest frameA [0, 1] [2] 5).2.2.2.1
      0 (by decide) 0 (by decide)⟩

/-- C2: for every frame, the contact count reported by
`contacts_within_cutoff` equals the number of atom pairs, one atom from
each group, whose separation distance is strictly below the cutoff. -/
theorem contacts_within_cutoff_count_close_pairs (d : Pos → Pos → ℚ)
    (u : Universe) (group_a group_b : AtomGroup) (radius : ℚ) :
    ∀ k (hk : k < u.trajectory.length),
      (contacts_within_cutoff d u group_a group_b radius)[k]? =
        some [(u.trajectory.get ⟨k, hk⟩).frame,
              (group_a ×ˢ group_b).countP
                (fun p => decide
                  (d ((u.trajectory.get ⟨k, hk⟩).coords p.1)
                     ((u.trajectory.get ⟨k, hk⟩).coords p.2) < radius))] := by
  intro k hk
  rw [contacts_within_cutoff_eq_map, List.getElem?_map,
    List.getElem?_eq_getElem hk]
  simp [List.get_eq_getElem, n_contacts_eq_countP]

/-- Witness for C2: on the concrete two-frame universe, row 0 holds frame
number 0 and the number of within-cutoff pairs of that frame. -/
theorem contacts_within_cutoff_count_close_pairs_witness :
    (contacts_within_cutoff dTest uTest [0, 1] [2] 5)[0]? = some [0, 2] := by
  have h := contacts_within_cutoff_count_close_pairs dTest uTest [0, 1] [2] 5 0
    (by decide)
  exact h

/-- The trajectory loop of the modelled `Contacts.run` with the ok-lifted
external calls inlined produces the pure result. -/
theorem contacts_within_cutoffE_ok_aux (d : Pos → Pos → ℚ)
    (group_a group_b : AtomGroup) (radius : ℚ) :
    ∀ (l : List Frame) (init : List (List ℕ)),
      List.foldlM (fun timeseries ts => do
          let dist ← Except.ok (ε := String)
            (distance_array d (groupPositions ts group_a)
              (groupPositions ts group_b))
          let cm ← Except.ok (contact_matrix dist radius)
          pure (timeseries ++ [[ts.frame, boolMatrixSum cm]])) init l
        = Except.ok (List.foldl (fun timeseries ts =>
            timeseries ++ [[ts.frame, n_contacts d ts group_a group_b radius]])
            init l)
  | [], init => rfl
  | ts :: l, init => by
      simp only [List.foldlM, List.foldl]
      exact contacts_within_cutoffE_ok_aux d group_a group_b radius l
        (init ++ [[ts.frame, n_contacts d ts group_a group_b radius]])

/-- C6: no failure originates in the notebook-defined logic: when the
external calls (the pairwise-distance routine, the thresholding routine,
and the array division) succeed, `contacts_within_cutoff` and
`fraction_contacts_between` succeed, returning their pure results; the
functions themselves have no error-raising branch. -/
theorem notebook_logic_error_free (d : Pos → Pos → ℚ)
    (distE : List Pos → List Pos → Except String (List (List ℚ)))
    (contactE : List (List ℚ) → ℚ → Except String (List (List Bool)))
    (divE : ℕ → ℕ → Except String ℚ)
    (hdist : ∀ xs ys, distE xs ys = Except.ok (distance_array d xs ys))
    (hcontact : ∀ dm rad, contactE dm rad = Except.ok (contact_matrix dm rad))
    (hdiv : ∀ a b, divE a b = Except.ok ((a : ℚ) / (b : ℚ)))
    (u : Universe) (group_a group_b : AtomGroup) (radius : ℚ)
    (r r0 : List ℚ) (rad minr : ℚ) :
    contacts_within_cutoffE distE contactE u group_a group_b radius =
      Except.ok (contacts_within_cutoff d u group_a group_b radius) ∧
    fraction_contacts_betweenE divE r r0 rad minr =
      Except.ok (fraction_contacts_between r r0 rad minr) := by
  constructor
  · unfold contacts_within_cutoffE contacts_within_cutoff
    simp only [hdist, hcontact]
    exact contacts_within_cutoffE_ok_aux d group_a group_b radius
      u.trajectory []
  · unfold fraction_contacts_betweenE fraction_contacts_between
    rw [hdiv]

/-- Witness for C6: with ok-lifted external calls, both notebook functions
return ok of their pure results on concrete inputs. -/
theorem notebook_logic_error_free_witness :
    contacts_within_cutoffE
        (fun xs ys => Except.ok (distance_array dTest xs ys))
        (fun dm rad => Except.ok (contact_matrix dm rad))
        uTest [0, 1] [2] 5 =
      Except.ok (contacts_within_cutoff dTest uTest [0, 1] [2] 5) ∧
    fraction_contacts_betweenE (fun a b => Except.ok ((a : ℚ) / (b : ℚ)))
        [1, 3] [] 4 2 =
      Except.ok (fraction_contacts_between [1, 3] [] 4 2) :=
  notebook_logic_error_free dTest
    (fun xs ys => Except.ok (distance_array dTest xs ys))
    (fun dm rad => Except.ok (contact_matrix dm rad))
    (fun a b => Except.ok ((a : ℚ) / (b : ℚ)))
    (fun _ _ => rfl) (fun _ _ => rfl) (fun _ _ => rfl)
    uTest [0, 1] [2] 5 [1, 3] [] 4 2

/-- C7: the computation is deterministic and sequential: equal inputs give
equal output tables, and the table for a trajectory beginning with a frame
is that frame's row followed by the table for the remaining frames. -/
theorem contacts_within_cutoff_deterministic (d : Pos → Pos → ℚ)
    (u u' : Universe) (ga ga' gb gb' : AtomGroup) (radius radius' : ℚ)
    (hu : u = u') (ha : ga = ga') (hb : gb = gb') (hr : radius = radius') :
    contacts_within_cutoff d u ga gb radius
        = contacts_within_cutoff d u' ga' gb' radius' ∧
    ∀ (ts : Frame) (rest : List Frame),
      contacts_within_cutoff d ⟨ts :: rest⟩ ga gb radius =
        [ts.frame, n_contacts d ts ga gb radius]
          :: contacts_within_cutoff d ⟨rest⟩ ga gb radius := by
  subst hu; subst ha; subst hb; subst hr
  refine ⟨rfl, ?_⟩
  intro ts rest
  rw [contacts_within_cutoff_eq_map, contacts_within_cutoff_eq_map]
  simp

/-- Witness for C7: equal concrete inputs give equal tables, and the
two-frame table is the first row followed by the one-frame table. -/
theorem contacts_within_cutoff_deterministic_witness :
    contacts_within_cutoff dTest uTest [0, 1] [2] 5
        = contacts_within_cutoff dTest uTest [0, 1] [2] 5 ∧
    contacts_within_cutoff dTest ⟨[frameA, frameB]⟩ [0, 1] [2] 5 =
      [frameA.frame, n_contacts dTest frameA [0, 1] [2] 5]
        :: contacts_within_cutoff dTest ⟨[frameB]⟩ [0, 1] [2] 5 :=
  ⟨(contacts_within_cutoff_deterministic dTest uTest uTest [0, 1] [0, 1]
      [2] [2] 5 5 rfl rfl rfl rfl).1,
   (contacts_within_cutoff_deterministic dTest uTest uTest [0, 1] [0, 1]
      [2] [2] 5 5 rfl rfl rfl rfl).2 frameA [frameB]⟩

/-- C8: the result of `fraction_contacts_between` does not depend on its
second argument r0: replacing r0 by any other array leaves the result
unchanged. -/
theorem fraction_contacts_between_ignores_r0 (r r0 r0' : List ℚ)
    (radius min_radius : ℚ) :
    fraction_contacts_between r r0 radius min_radius =
      fraction_contacts_between r r0' radius min_radius := rfl

/-- C9: for a non-empty distance array, `fraction_contacts_between` returns
the number of entries strictly between min_radius and radius divided by the
array size, and that value lies in the interval from 0 to 1. -/
theorem fraction_contacts_between_range (r r0 : List ℚ)
    (radius min_radius : ℚ) (h : r ≠ []) :
    fraction_contacts_between r r0 radius min_radius =
      ((r.countP (fun x => decide (min_radius < x) && decide (x < radius)) : ℕ) : ℚ)
        / ((r.length : ℕ) : ℚ) ∧
    0 ≤ fraction_contacts_between r r0 radius min_radius ∧
    fraction_contacts_between r r0 radius min_radius ≤ 1 := by
  have hlen : 0 < r.length := List.length_pos.mpr h
  have hcount : (r.map (fun x => decide (x < radius) && decide (min_radius < x))).count true
      = r.countP (fun x => decide (min_radius < x) && decide (x < radius)) := by
    rw [count_true_map]
    exact List.countP_congr (fun x _ => by rw [Bool.and_comm])
  have heq : fraction_contacts_between r r0 radius min_radius =
      ((r.countP (fun x => decide (min_radius < x) && decide (x < radius)) : ℕ) : ℚ)
        / ((r.length : ℕ) : ℚ) := by
    unfold fraction_contacts_between
    simp only [hcount]
  refine ⟨heq, ?_, ?_⟩
  · rw [heq]
    positivity
  · rw [heq]
    rw [div_le_one (by exact_mod_cast hlen)]
    exact_mod_cast List.countP_le_length _

/-- Witness for C9: on the concrete array with entries 1 and 3, the
returned fraction is the in-range count over the size and lies between 0
and 1. -/
theorem fraction_contacts_between_range_witness :
    fraction_contacts_between [1, 3] [] 4 2 =
      ((([(1 : ℚ), 3].countP
          (fun x => decide ((2 : ℚ) < x) && decide (x < (4 : ℚ)))) : ℕ) : ℚ)
        / ((([(1 : ℚ), 3].length) : ℕ) : ℚ) ∧
    0 ≤ fraction_contacts_between [1, 3] [] 4 2 ∧
    fraction_contacts_between [1, 3] [] 4 2 ≤ 1 :=
  fraction_contacts_between_range [1, 3] [] 4 2 (by decide)

/-- C10: every contact count in the returned table lies between 0 and the
product of the two group sizes. -/
theorem contacts_within_cutoff_count_bounds (d : Pos → Pos → ℚ)
    (u : Universe) (group_a group_b : AtomGroup) (radius : ℚ) :
    ∀ row ∈ contacts_within_cutoff d u group_a group_b radius,
      ∀ c, row[1]? = some c →
        0 ≤ c ∧ c ≤ group_a.length * group_b.length := by
  rw [contacts_within_cutoff_eq_map]
  intro row hrow c hc
  rcases List.mem_map.mp hrow with ⟨ts, -, rfl⟩
  have hcn : n_contacts d ts group_a group_b radius = c := by
    simpa using hc
  refine ⟨Nat.zero_le _, ?_⟩
  rw [← hcn, n_contacts_eq_countP]
  calc (group_a ×ˢ group_b).countP
        (fun p => decide (d (ts.coords p.1) (ts.coords p.2) < radius))
      ≤ (group_a ×ˢ group_b).length := List.countP_le_length _
    _ = group_a.length * group_b.length := List.length_product _ _

/-- Witness for C10: the count 2 in the first row of the concrete table is
between 0 and the product of the group sizes. -/
theorem contacts_within_cutoff_count_bounds_witness :
    0 ≤ 2 ∧ 2 ≤ ([0, 1] : AtomGroup).length * ([2] : AtomGroup).length :=
  contacts_within_cutoff_count_bounds dTest uTest [0, 1] [2] 5 [0, 2]
    (by decide) 2 (by decide)

/-- C4: the `Contacts` analysis invoked with the notebook's pluggable
scoring function `fraction_contacts_between` produces, after `run()`, a
time series with one row per trajectory frame, whose first column is the
frame index and whose second column is the score the scoring function
returned for that frame. -/
theorem Contacts_run_timeseries (d : Pos → Pos → ℚ) (c : Contacts)
    (hmethod : c.method = fraction_contacts_between) :
    (Contacts.run d c).length = c.u.trajectory.length ∧
    ∀ k (hk : k < c.u.trajectory.length),
      (Contacts.run d c)[k]? =
        some [((c.u.trajectory.get ⟨k, hk⟩).frame : ℚ),
              fraction_contacts_between
                ((distance_array d
                    (groupPositions (c.u.trajectory.get ⟨k, hk⟩) c.grA)
                    (groupPositions (c.u.trajectory.get ⟨k, hk⟩) c.grB)).flatten)
                (Contacts.r0 d c) c.kwRadius c.kwMinRadius] := by
  have hrun : Contacts.run d c = c.u.trajectory.map (fun ts =>
      [(ts.frame : ℚ),
       c.method
         ((distance_array d (groupPositions ts c.grA)
             (groupPositions ts c.grB)).flatten)
         (Contacts.r0 d c) c.kwRadius c.kwMinRadius]) := by
    unfold Contacts.run
    simpa using foldl_append_singleton
      (fun ts =>
        [(ts.frame : ℚ),
         c.method
           ((distance_array d (groupPositions ts c.grA)
               (groupPositions ts c.grB)).flatten)
           (Contacts.r0 d c) c.kwRadius c.kwMinRadius])
      c.u.trajectory []
  rw [hrun, hmethod]
  constructor
  · simp
  · intro k hk
    rw [List.getElem?_map, List.getElem?_eq_getElem hk]
    simp [List.get_eq_getElem]

/-- Witness for C4: on the concrete analysis object, row 0 of the time
series holds frame number 0 and the score of the scoring function on that
frame's distances. -/
theorem Contacts_run_timeseries_witness :
    (Contacts.run dTest cTest)[0]? =
      some [((frameA.frame : ℕ) : ℚ),
            fraction_contacts_between
              ((distance_array dTest (groupPositions frameA [0, 1])
                  (groupPositions frameA [2])).flatten)
              (Contacts.r0 dTest cTest) 5 2] :=
  (Contacts_run_timeseries dTest cTest rfl).2 0 (by decide)

/-- C5: the salt-bridge selection strings are sound: every atom matched by
`(resname ARG LYS) and (name NH* NZ)` belongs to residue ARG or LYS and has
a name starting with NH or equal to NZ, and every atom matched by
`(resname ASP GLU) and (name OE* OD*)` belongs to residue ASP or GLU and
has a name starting with OE or OD; hence every counted contact pairs one
atom of each kind. -/
theorem salt_bridge_selections (atoms : List Atom) :
    (∀ a ∈ select_atoms atoms sel_basic,
        (a.resname = "ARG" ∨ a.resname = "LYS") ∧
        ("NH".data <+: a.name.data ∨ a.name = "NZ")) ∧
    (∀ a ∈ select_atoms atoms sel_acidic,
        (a.resname = "ASP" ∨ a.resname = "GLU") ∧
        ("OE".data <+: a.name.data ∨ "OD".data <+: a.name.data)) := by
  constructor
  · intro a ha
    have hsel := (List.mem_filter.mp ha).2
    simp only [Selection.matchesAtom, sel_basic, NameToken.matchesName,
      Bool.and_eq_true, List.contains_eq_any_beq, List.any_cons,
      List.any_nil, Bool.or_eq_true, beq_iff_eq,
      List.isPrefixOf_iff_prefix] at hsel
    tauto
  · intro a ha
    have hsel := (List.mem_filter.mp ha).2
    simp only [Selection.matchesAtom, sel_acidic, NameToken.matchesName,
      Bool.and_eq_true, List.contains_eq_any_beq, List.any_cons,
      List.any_nil, Bool.or_eq_true, beq_iff_eq,
      List.isPrefixOf_iff_prefix] at hsel
    tauto

/-- Witness for C5: the arginine guanidinium nitrogen NH1 is selected by
the basic selection and satisfies the stated property, evaluated on a
concrete atom list. -/
theorem salt_bridge_selections_witness :
    ((⟨"ARG", "NH1"⟩ : Atom).resname = "ARG"
        ∨ (⟨"ARG", "NH1"⟩ : Atom).resname = "LYS") ∧
    ("NH".data <+: (⟨"ARG", "NH1"⟩ : Atom).name.data
        ∨ (⟨"ARG", "NH1"⟩ : Atom).name = "NZ") :=
  (salt_bridge_selections [⟨"ARG", "NH1"⟩, ⟨"GLY", "CA"⟩]).1
    ⟨"ARG", "NH1"⟩ (by decide)
